import Mathlib

/-!
# Verification of the repo-analyzer core pipeline

A shallow embedding, in Lean 4, of the core functions of
`repo_analyzer.py` (Universal AI-Powered Repository Analyzer): the file
filter, the heuristic file ranker, the AI file selector's response
processing, the content fetcher's budgeting loop, the structure
analyzer's fallback, the AI-client retry loop, the GitHub fetch retry
loops, and the JSON payload extraction primitive.

Python strings are modelled as `List Char`.  Network effects are
modelled by passing an explicit oracle describing the outcome of each
request; sleeps are collected into a trace instead of being performed.
-/

set_option autoImplicit false

namespace RepoAnalyzer

/-- Python `str` is modelled as a list of characters. -/
abbrev Str := List Char

/-- ASCII lower-casing of one character; agrees with Python `str.lower`
on the ASCII inputs the analyzer manipulates. -/
def lowerChar (c : Char) : Char :=
  if 'A' ≤ c ∧ c ≤ 'Z' then Char.ofNat (c.toNat + 32) else c

/-- Python `s.lower()` (ASCII fragment). -/
def strLower (s : Str) : Str := s.map lowerChar

/-- Python `needle in hay` (substring containment). -/
def containsSub (needle : Str) : Str → Bool
  | [] => needle.isEmpty
  | c :: t => needle.isPrefixOf (c :: t) || containsSub needle t

/-- Python `s.split(sep)` for a one-character separator: keeps empty
segments, and splitting the empty string yields `[""]`. -/
def splitOnChar (sep : Char) : Str → List Str
  | [] => [[]]
  | c :: t =>
    let r := splitOnChar sep t
    if c = sep then [] :: r
    else
      match r with
      | [] => [[c]]
      | h :: t2 => (c :: h) :: t2

/-- Python `os.path.basename`: the part after the last slash. -/
def basename (s : Str) : Str := (splitOnChar '/' s).getLastD []

/-- Index of the last occurrence of a character, if any. -/
def lastIdxOf (c : Char) : Str → Option Nat
  | [] => none
  | x :: t =>
    match lastIdxOf c t with
    | some i => some (i + 1)
    | none => if x = c then some 0 else none

/-- Python `pathlib.Path(p).suffix`: the extension of the final path
component, empty when the only dot is leading or trailing. -/
def pathSuffix (s : Str) : Str :=
  let nm := basename s
  match lastIdxOf '.' nm with
  | none => []
  | some i => if 0 < i ∧ i < nm.length - 1 then nm.drop i else []

/-- `Constants.SUPPORTED_EXTENSIONS` from the source. -/
def SUPPORTED_EXTENSIONS : List Str :=
  [".js".data, ".ts".data, ".jsx".data, ".tsx".data, ".py".data, ".java".data,
   ".go".data, ".rs".data, ".rb".data, ".php".data, ".cpp".data, ".c".data,
   ".cs".data, ".swift".data, ".kt".data, ".scala".data, ".clj".data,
   ".json".data, ".yaml".data, ".yml".data, ".toml".data, ".xml".data,
   ".md".data, ".txt".data, ".sh".data, ".dockerfile".data, ".makefile".data]

/-- The per-path keep/drop decision of `_filter_files`: a path is kept
unless a path segment equals an excluded directory, the path ends with
an excluded extension, or it has an extension outside the supported
set. -/
def keepFile (excludedDirs excludedExts supportedExts : List Str) (fp : Str) : Bool :=
  !(excludedDirs.any fun d => (splitOnChar '/' fp).contains d) &&
  !(excludedExts.any fun e => e.isSuffixOf fp) &&
  (let ext := strLower (pathSuffix fp)
   ext.isEmpty || supportedExts.contains ext)

/-- `_filter_files` (src/repo_analyzer.py:666-696), with the exclusion
configuration passed explicitly; the source reads the excluded lists
from `self.config` and the supported set from `Constants`. -/
def filter_files (excludedDirs excludedExts supportedExts : List Str)
    (allFiles : List Str) : List Str :=
  allFiles.filter (keepFile excludedDirs excludedExts supportedExts)

/-! ## Heuristic file ranker (`_heuristic_file_selection`) -/

/-- `Constants.PRIORITY_PATTERNS` from the source (ordered by priority). -/
def PRIORITY_PATTERNS : List Str :=
  ["package.json".data, "pom.xml".data, "build.gradle".data, "Cargo.toml".data,
   "go.mod".data, "requirements.txt".data, "setup.py".data, "pyproject.toml".data,
   "composer.json".data, "Gemfile".data, "mix.exs".data, "project.clj".data,
   "deps.edn".data,
   "tsconfig.json".data, "webpack.config.js".data, "vite.config.js".data,
   "rollup.config.js".data, "babel.config.js".data, "jest.config.js".data,
   "cypress.json".data,
   "Dockerfile".data, ".github/workflows".data, ".gitlab-ci.yml".data,
   "Jenkinsfile".data, "docker-compose.yml".data, "k8s.yml".data,
   "kubernetes.yml".data,
   "README.md".data, "CONTRIBUTING.md".data, ".env.example".data,
   "makefile".data, "Makefile".data]

/-- The documentation/license filename list of `_heuristic_file_selection`. -/
def DOC_FILENAMES : List Str :=
  ["readme.md".data, "license".data, "contributing.md".data]

/-- The pattern-scan loop of `_heuristic_file_selection`: scan the
pattern list from index `i`, award on the first case-insensitive
substring match and stop (the `break` in the source). -/
def patternScoreAux (fp : Str) : List Str → Nat → Nat
  | [], _ => 0
  | p :: rest, i =>
    if containsSub (strLower p) (strLower fp) then
      (PRIORITY_PATTERNS.length - i) * 10
    else
      patternScoreAux fp rest (i + 1)

/-- The total score `_heuristic_file_selection` assigns to one path:
priority-pattern award, +5 for root-level paths, +3 for filenames
containing "config" or "setup", +2 for documentation/license names. -/
def fileScore (fp : Str) : Nat :=
  let fname := strLower (basename fp)
  patternScoreAux fp PRIORITY_PATTERNS 0
    + (if fp.count '/' = 0 then 5 else 0)
    + (if containsSub "config".data fname || containsSub "setup".data fname then 3 else 0)
    + (if DOC_FILENAMES.contains fname then 2 else 0)

/-- Insert into a descending-by-key list, after all entries of equal or
larger key: the behavior of a stable descending sort on the new
element. -/
def insertDesc {α : Type} (key : α → Nat) (x : α) : List α → List α
  | [] => [x]
  | y :: ys => if key y < key x then x :: y :: ys else y :: insertDesc key x ys

/-- Stable sort, descending by `key`; models Python
`list.sort(key=..., reverse=True)`, which is stable. -/
def stableSortDesc {α : Type} (key : α → Nat) (l : List α) : List α :=
  l.foldl (fun acc x => insertDesc key x acc) []

/-- `_heuristic_file_selection` (src/repo_analyzer.py:924-967): build
the list of (path, score) pairs with positive score in input order,
stable-sort it descending by score, and keep the first
`max_files_to_analyze` paths. -/
def heuristic_file_selection (maxFiles : Nat) (allFiles : List Str) : List Str :=
  let scored := allFiles.filterMap fun fp =>
    let s := fileScore fp
    if s > 0 then some (fp, s) else none
  let sorted := stableSortDesc (fun x => x.2) scored
  (sorted.take maxFiles).map (fun x => x.1)

/-- First index in a list satisfying a predicate, if any. -/
def firstMatchIdx {α : Type} (pred : α → Bool) : List α → Option Nat
  | [] => none
  | p :: rest => if pred p then some 0 else (firstMatchIdx pred rest).map (· + 1)

/-- Transcription of the C6 claim text for the per-path score: on the
first matching pattern award (patternListLength - patternIndex) * 10,
then the three flat bonuses.  Written from the spec sentence, to be
compared with `fileScore` (translated from the source). -/
def specScore (fp : Str) : Nat :=
  (match firstMatchIdx (fun p => containsSub (strLower p) (strLower fp)) PRIORITY_PATTERNS with
   | some i => (PRIORITY_PATTERNS.length - i) * 10
   | none => 0)
    + (if fp.count '/' = 0 then 5 else 0)
    + (if containsSub "config".data (strLower (basename fp)) ||
          containsSub "setup".data (strLower (basename fp)) then 3 else 0)
    + (if DOC_FILENAMES.contains (strLower (basename fp)) then 2 else 0)

/-- Transcription of the C6 claim text for the whole ranking: exclude
zero-scoring paths, stable-sort descending by score, return the top
`limit`.  Written from the spec sentence. -/
def heuristicRankSpec (limit : Nat) (paths : List Str) : List Str :=
  (stableSortDesc specScore (paths.filter (fun p => specScore p > 0))).take limit

/-! ## Content fetcher (`_fetch_file_contents`) -/

/-- `Constants.MAX_TOTAL_CONTENT_SIZE` from the source. -/
def MAX_TOTAL_CONTENT_SIZE : Nat := 100000

/-- The truncation marker appended by `_fetch_file_contents`. -/
def TRUNCATION_MARKER : Str := "\n... (truncated)".data

/-- Outcome of one GitHub contents request, as observed by
`_fetch_file_contents`.  `base64Content (some t)` is a base64 payload
that decodes to UTF-8 text `t`; `base64Content none` is a payload whose
bytes are not valid UTF-8 (a binary file) or fail to decode. -/
inductive FetchOutcome where
  | rateLimited
  | notFound
  | requestError
  | otherError
  | base64Content (text : Option Str)
  | otherEncoding

/-- Python dict assignment `d[k] = v` on an insertion-ordered
association list: an existing key keeps its position and gets the new
value; a new key is appended. -/
def assocSet {α : Type} (k : Str) (v : α) : List (Str × α) → List (Str × α)
  | [] => [(k, v)]
  | (k2, v2) :: t => if k2 = k then (k2, v) :: t else (k2, v2) :: assocSet k v t

/-- The fetch loop of `_fetch_file_contents`: before each file, stop
for good once the accumulated size has reached `maxTotal`; skip
not-found, request-error, binary and non-base64 files; stop on a
rate-limit response; truncate oversized text to `maxFileSize`
characters plus the truncation marker; store the entry and add its
length to the accumulated size. -/
def fetchLoop (oracle : Str → FetchOutcome) (maxFileSize maxTotal : Nat) :
    List Str → List (Str × Str) → Nat → List (Str × Str)
  | [], acc, _ => acc
  | fp :: rest, acc, total =>
    if total ≥ maxTotal then acc
    else
      match oracle fp with
      | .rateLimited => acc
      | .notFound => fetchLoop oracle maxFileSize maxTotal rest acc total
      | .requestError => fetchLoop oracle maxFileSize maxTotal rest acc total
      | .otherError => fetchLoop oracle maxFileSize maxTotal rest acc total
      | .otherEncoding => fetchLoop oracle maxFileSize maxTotal rest acc total
      | .base64Content none => fetchLoop oracle maxFileSize maxTotal rest acc total
      | .base64Content (some text) =>
        let t := if text.length > maxFileSize then
            text.take maxFileSize ++ TRUNCATION_MARKER
          else text
        fetchLoop oracle maxFileSize maxTotal rest (assocSet fp t acc) (total + t.length)

/-- `_fetch_file_contents` (src/repo_analyzer.py:988-1057): the network
is abstracted into `oracle`; `maxFileSize` is `config[max_file_size]`,
and the total budget is the constant `MAX_TOTAL_CONTENT_SIZE`. -/
def fetch_file_contents (oracle : Str → FetchOutcome) (maxFileSize : Nat)
    (filePaths : List Str) : List (Str × Str) :=
  fetchLoop oracle maxFileSize MAX_TOTAL_CONTENT_SIZE filePaths [] 0

/-- Total combined content length of a FileContentMap. -/
def sumVals (m : List (Str × Str)) : Nat := (m.map (fun e => e.2.length)).sum

/-! ## AI client (`_call_ai_model`) -/

/-- `Constants.AI_MAX_RETRIES` from the source. -/
def AI_MAX_RETRIES : Nat := 3

/-- `Constants.AI_RETRY_DELAY` from the source (seconds). -/
def AI_RETRY_DELAY : Nat := 2

/-- Outcome of one chat-completion request: a first choice with content,
an empty choice list, or a raised exception with message text. -/
inductive AiAttemptOutcome where
  | success (content : Str)
  | emptyChoices
  | raised (msg : Str)

/-- Message of the AIModelError raised when the choice list is empty;
it re-enters the same except-handler as any other exception. -/
def EMPTY_RESPONSE_MSG : Str := "AI model returned empty response".data

/-- The non-retryable markers `_call_ai_model` looks for in the
lower-cased error text. -/
def AUTH_ERROR_MARKERS : List Str :=
  ["authentication".data, "api_key".data, "unauthorized".data, "forbidden".data]

/-- Whether an error message is classified as an authentication error. -/
def isAuthError (msg : Str) : Bool :=
  AUTH_ERROR_MARKERS.any fun m => containsSub m (strLower msg)

/-- Final result of `_call_ai_model`: the response content, the
immediately-raised authentication failure, or the terminal failure
after all attempts. -/
inductive AiCallResult where
  | ok (content : Str)
  | authenticationFailed
  | failedAllAttempts
deriving DecidableEq

/-- Observable trace of one `_call_ai_model` invocation: its result,
how many attempts were made, and the backoff sleeps performed (in
order, in seconds). -/
structure AiCallTrace where
  result : AiCallResult
  attempts : Nat
  sleeps : List Nat
deriving DecidableEq

/-- The retry loop of `_call_ai_model` (src/repo_analyzer.py:1828-1867):
success returns the content; an empty choice list raises and is handled
like any exception; an error whose lower-cased text contains an
authentication marker is raised immediately without sleeping; the last
attempt's error is terminal; otherwise sleep
AI_RETRY_DELAY * 2 ^ attempt and retry. -/
def callAiLoop (oracle : Nat → AiAttemptOutcome) :
    Nat → Nat → List Nat → AiCallTrace
  | 0, attemptIdx, sleeps => ⟨.failedAllAttempts, attemptIdx, sleeps⟩
  | remaining + 1, attemptIdx, sleeps =>
    match oracle attemptIdx with
    | .success content => ⟨.ok content, attemptIdx + 1, sleeps⟩
    | outcome =>
      let msg := match outcome with
        | .emptyChoices => EMPTY_RESPONSE_MSG
        | .raised m => m
        | .success c => c
      if isAuthError msg then ⟨.authenticationFailed, attemptIdx + 1, sleeps⟩
      else if remaining = 0 then ⟨.failedAllAttempts, attemptIdx + 1, sleeps⟩
      else callAiLoop oracle remaining (attemptIdx + 1)
          (sleeps ++ [AI_RETRY_DELAY * 2 ^ attemptIdx])

/-- `_call_ai_model` with the provider abstracted into an oracle giving
the outcome of each attempt. -/
def call_ai_model (oracle : Nat → AiAttemptOutcome) : AiCallTrace :=
  callAiLoop oracle AI_MAX_RETRIES 0 []

/-! ## GitHub API fetch loops (`_fetch_repo_info`, `_fetch_complete_file_tree`) -/

/-- Outcome of one GitHub HTTP request: a response with status code,
body text and decoded payload, a timeout, or another request
exception. -/
inductive HttpOutcome (α : Type) where
  | response (status : Nat) (body : Str) (payload : α)
  | timeout
  | requestError

/-- Final result of a GitHub fetch: the payload, the immediately-raised
rate-limit error, the terminal request failure, or the empty default
returned when every attempt timed out. -/
inductive GhResult (α : Type) where
  | ok (payload : α)
  | rateLimited
  | requestFailed
  | exhausted

/-- Observable trace of one GitHub fetch: result, attempts made, and
backoff sleeps performed (in order, in seconds). -/
structure GhTrace (α : Type) where
  result : GhResult α
  attempts : Nat
  sleeps : List Nat

/-- The retry loop shared by `_fetch_repo_info` and
`_fetch_complete_file_tree`: an HTTP 403 whose body contains
"rate limit" (case-insensitively) raises GitHubAPIError at once, which
no except-handler of the loop catches; any other status of at least 400
raises through raise_for_status into the request-exception handler
(terminal on the last attempt, otherwise sleep 2 ^ attempt and retry); a
timeout sleeps and retries except on the last attempt, after which the
loop falls through to the empty default. -/
def ghFetchLoop {α : Type} (oracle : Nat → HttpOutcome α) :
    Nat → Nat → List Nat → GhTrace α
  | 0, attemptIdx, sleeps => ⟨.exhausted, attemptIdx, sleeps⟩
  | remaining + 1, attemptIdx, sleeps =>
    match oracle attemptIdx with
    | .response status body payload =>
      if status = 403 ∧ containsSub "rate limit".data (strLower body) then
        ⟨.rateLimited, attemptIdx + 1, sleeps⟩
      else if 400 ≤ status then
        if remaining = 0 then ⟨.requestFailed, attemptIdx + 1, sleeps⟩
        else ghFetchLoop oracle remaining (attemptIdx + 1) (sleeps ++ [2 ^ attemptIdx])
      else ⟨.ok payload, attemptIdx + 1, sleeps⟩
    | .timeout =>
      if remaining = 0 then ghFetchLoop oracle remaining (attemptIdx + 1) sleeps
      else ghFetchLoop oracle remaining (attemptIdx + 1) (sleeps ++ [2 ^ attemptIdx])
    | .requestError =>
      if remaining = 0 then ⟨.requestFailed, attemptIdx + 1, sleeps⟩
      else ghFetchLoop oracle remaining (attemptIdx + 1) (sleeps ++ [2 ^ attemptIdx])

/-- `_fetch_repo_info` (src/repo_analyzer.py:698-756): three attempts;
the metadata payload is abstract here since the function returns the
decoded body unchanged; `GhResult.exhausted` is the `return {}` after
three timeouts. -/
def fetch_repo_info {α : Type} (oracle : Nat → HttpOutcome α) : GhTrace α :=
  ghFetchLoop oracle 3 0 []

/-- `_fetch_complete_file_tree` (src/repo_analyzer.py:758-816): same
loop, with the successful payload — a list of tree entries (path, type)
— reduced to the paths of entries whose type is "blob";
`GhResult.exhausted` is the `return []` after three timeouts. -/
def fetch_complete_file_tree (oracle : Nat → HttpOutcome (List (Str × Str))) :
    GhTrace (List Str) :=
  let t := ghFetchLoop oracle 3 0 []
  { result :=
      match t.result with
      | .ok items =>
        .ok (items.filterMap fun it => if it.2 = "blob".data then some it.1 else none)
      | .rateLimited => .rateLimited
      | .requestFailed => .requestFailed
      | .exhausted => .exhausted
    attempts := t.attempts
    sleeps := t.sleeps }

/-! ## JSON values and a model of `json.loads`

The analyzer parses AI responses with Python's `json.loads`.  The model
below implements the JSON grammar; numbers are kept as their source
lexemes (the analyzer never computes with them), and `\uXXXX` string
escapes are not modelled (no behavior settled here exercises them). -/

/-- A JSON value. -/
inductive Json where
  | null
  | bool (b : Bool)
  | num (lexeme : Str)
  | str (s : Str)
  | arr (elems : List Json)
  | obj (fields : List (Str × Json))

/-- JSON whitespace. -/
def isJsonWs (c : Char) : Bool := c = ' ' || c = '\t' || c = '\n' || c = '\r'

/-- Drop leading JSON whitespace. -/
def skipWs : Str → Str
  | [] => []
  | c :: t => if isJsonWs c then skipWs t else c :: t

/-- ASCII digit test. -/
def isDigitChar (c : Char) : Bool := '0' ≤ c && c ≤ '9'

/-- Longest digit prefix and the remainder. -/
def takeDigits : Str → (Str × Str)
  | [] => ([], [])
  | c :: t =>
    if isDigitChar c then
      let r := takeDigits t
      (c :: r.1, r.2)
    else ([], c :: t)

/-- Single-character JSON string escapes. -/
def decodeEscape (e : Char) : Option Char :=
  if e = '"' then some '"'
  else if e = '\\' then some '\\'
  else if e = '/' then some '/'
  else if e = 'n' then some '\n'
  else if e = 't' then some '\t'
  else if e = 'r' then some '\r'
  else if e = 'b' then some (Char.ofNat 8)
  else if e = 'f' then some (Char.ofNat 12)
  else none

/-- Body of a JSON string literal, after the opening quote: the decoded
characters and the remainder after the closing quote. -/
def parseStringBody : Str → Option (Str × Str)
  | [] => none
  | c :: t =>
    if c = '"' then some ([], t)
    else if c = '\\' then
      match t with
      | [] => none
      | e :: t2 =>
        match decodeEscape e with
        | none => none
        | some d =>
          match parseStringBody t2 with
          | some (rest, rem) => some (d :: rest, rem)
          | none => none
    else if c.toNat < 32 then none
    else
      match parseStringBody t with
      | some (rest, rem) => some (c :: rest, rem)
      | none => none

/-- Optional fraction part of a number lexeme. -/
def parseFrac (acc : Str) (s : Str) : Option (Str × Str) :=
  match s with
  | '.' :: t =>
    match takeDigits t with
    | ([], _) => none
    | (ds, rest) => some (acc ++ '.' :: ds, rest)
  | _ => some (acc, s)

/-- Optional exponent part of a number lexeme. -/
def parseExp (acc : Str) (s : Str) : Option (Str × Str) :=
  match s with
  | [] => some (acc, [])
  | c :: t =>
    if c = 'e' ∨ c = 'E' then
      let sgnAndRest : Str × Str :=
        match t with
        | '+' :: u => (['+'], u)
        | '-' :: u => (['-'], u)
        | _ => ([], t)
      match takeDigits sgnAndRest.2 with
      | ([], _) => none
      | (ds, rest) => some (acc ++ c :: (sgnAndRest.1 ++ ds), rest)
    else some (acc, c :: t)

/-- Fraction and exponent after the integer part. -/
def parseNumTail (acc : Str) (s : Str) : Option (Str × Str) :=
  match parseFrac acc s with
  | none => none
  | some (a, r) => parseExp a r

/-- A JSON number lexeme: optional minus, 0 or a nonzero-led digit run,
optional fraction and exponent. -/
def parseNumber (s : Str) : Option (Str × Str) :=
  let negAndRest : Str × Str :=
    match s with
    | '-' :: t => (['-'], t)
    | _ => ([], s)
  match negAndRest.2 with
  | [] => none
  | c :: t =>
    if c = '0' then parseNumTail (negAndRest.1 ++ [c]) t
    else if isDigitChar c then
      let dr := takeDigits t
      parseNumTail (negAndRest.1 ++ c :: dr.1) dr.2
    else none

/-- Python-dict construction from parsed object members: a repeated key
keeps its first position and takes the last value. -/
def buildObj (ms : List (Str × Json)) : List (Str × Json) :=
  ms.foldl (fun acc kv => assocSet kv.1 kv.2 acc) []

mutual

/-- Parse one JSON value (fuel-bounded recursion; the fuel given by
`parseJson` always suffices for its input). -/
def parseValue : Nat → Str → Option (Json × Str)
  | 0, _ => none
  | fuel + 1, s =>
    match skipWs s with
    | [] => none
    | c :: t =>
      if c = '"' then
        match parseStringBody t with
        | some (cs, rem) => some (.str cs, rem)
        | none => none
      else if c = '[' then
        match skipWs t with
        | ']' :: rem => some (.arr [], rem)
        | _ =>
          match parseElems fuel t with
          | some (vs, rem) => some (.arr vs, rem)
          | none => none
      else if c = '{' then
        match skipWs t with
        | '}' :: rem => some (.obj [], rem)
        | _ =>
          match parseMembers fuel t with
          | some (ms, rem) => some (.obj (buildObj ms), rem)
          | none => none
      else if c = 't' then
        if "rue".data.isPrefixOf t then some (.bool true, t.drop 3) else none
      else if c = 'f' then
        if "alse".data.isPrefixOf t then some (.bool false, t.drop 4) else none
      else if c = 'n' then
        if "ull".data.isPrefixOf t then some (.null, t.drop 3) else none
      else if c = '-' || isDigitChar c then
        match parseNumber (c :: t) with
        | some (lex, rem) => some (.num lex, rem)
        | none => none
      else none

/-- Parse the elements of a non-empty JSON array, up to and including
the closing bracket. -/
def parseElems : Nat → Str → Option (List Json × Str)
  | 0, _ => none
  | fuel + 1, s =>
    match parseValue fuel s with
    | none => none
    | some (v, rem) =>
      match skipWs rem with
      | ',' :: t =>
        match parseElems fuel t with
        | some (vs, rem2) => some (v :: vs, rem2)
        | none => none
      | ']' :: t => some ([v], t)
      | _ => none

/-- Parse the members of a non-empty JSON object, up to and including
the closing brace. -/
def parseMembers : Nat → Str → Option (List (Str × Json) × Str)
  | 0, _ => none
  | fuel + 1, s =>
    match skipWs s with
    | '"' :: t =>
      match parseStringBody t with
      | none => none
      | some (key, rem) =>
        match skipWs rem with
        | ':' :: t2 =>
          match parseValue fuel t2 with
          | none => none
          | some (v, rem2) =>
            match skipWs rem2 with
            | ',' :: t3 =>
              match parseMembers fuel t3 with
              | some (ms, rem3) => some ((key, v) :: ms, rem3)
              | none => none
            | '}' :: t3 => some ([(key, v)], t3)
            | _ => none
        | _ => none
    | _ => none

end

/-- Python `json.loads`: parse one JSON document and require only
whitespace to remain (a strict parse). -/
def parseJson (s : Str) : Option Json :=
  match parseValue (2 * s.length + 2) s with
  | some (v, rem) => if (skipWs rem).isEmpty then some v else none
  | none => none

/-! ## Result extraction primitive -/

/-- Index of the first occurrence of a character (Python `str.find`). -/
def strFind (c : Char) : Str → Option Nat
  | [] => none
  | x :: t => if x = c then some 0 else (strFind c t).map (· + 1)

/-- Index of the last occurrence of a character (Python `str.rfind`). -/
def strRFind (c : Char) : Str → Option Nat
  | [] => none
  | x :: t =>
    match strRFind c t with
    | some i => some (i + 1)
    | none => if x = c then some 0 else none

/-- The slicing step shared by `_ai_select_files_to_analyze`,
`_ai_analyze_repo_structure` and `analyze_with_ai`: take the substring
from the first occurrence of `opener` to the last occurrence of
`closer`, inclusive; absent delimiters mean no payload. -/
def extract_payload (opener closer : Char) (s : Str) : Option Str :=
  match strFind opener s, strRFind closer s with
  | some i, some j => some ((s.drop i).take (j + 1 - i))
  | _, _ => none

/-- The extraction primitive: slice between the delimiters, then
strict-parse the slice. -/
def extractJson (opener closer : Char) (s : Str) : Option Json :=
  (extract_payload opener closer s).bind parseJson

/-- Whether a string strict-parses as a JSON array. -/
def isJsonArrayStr (s : Str) : Bool :=
  match parseJson s with
  | some (Json.arr _) => true
  | _ => false

/-- The number of substrings of `s` that strict-parse as a JSON array:
formalizes "contains exactly one well-formed JSON array" when it equals
one. -/
def countArraySubstrings (s : Str) : Nat :=
  ((List.range (s.length + 1)).map fun i =>
    ((List.range (s.length + 1)).filter fun j =>
      i < j && isJsonArrayStr ((s.drop i).take (j - i))).length).sum

/-! ## AI file selector (`_ai_select_files_to_analyze`) -/

/-- What `_call_ai_model` hands back to its caller: response text, a
non-string value, or a raised exception (the caller catches every
exception and falls back). -/
inductive AiResponse where
  | text (s : Str)
  | nonText
  | error

/-- Python iteration over the value returned by `json.loads`, as used
by the selector's list comprehension: a list yields its elements, a
string yields its characters as one-character strings, a dict yields
its keys; numbers, booleans and null raise TypeError (which the
selector's except-handler turns into the fallback). -/
def pyIterElems : Json → Option (List Json)
  | Json.arr l => some l
  | Json.str s => some (s.map fun c => Json.str [c])
  | Json.obj kvs => some (kvs.map fun kv => Json.str kv.1)
  | _ => none

/-- The validation step of the selector: keep the iterated items that
are strings and members of the real file list. -/
def validSelected (allFiles : List Str) (elems : List Json) : List Str :=
  elems.filterMap fun j =>
    match j with
    | Json.str f => if allFiles.contains f then some f else none
    | _ => none

/-- `_ai_select_files_to_analyze` (src/repo_analyzer.py:818-922), from
the AI response on: extract the bracketed slice, strict-parse it,
validate the entries against the real file list, and truncate to
`max_files_to_analyze`; every failure (no slice, parse error, a
non-iterable value, or an empty validated list) falls back to
`_heuristic_file_selection`.  The prompt built from the repository
metadata only influences the response, which is already abstracted
here. -/
def ai_select_files (maxFiles : Nat) (allFiles : List Str) (resp : AiResponse) :
    List Str :=
  match resp with
  | .error => heuristic_file_selection maxFiles allFiles
  | .nonText => heuristic_file_selection maxFiles allFiles
  | .text s =>
    match extract_payload '[' ']' s with
    | none => heuristic_file_selection maxFiles allFiles
    | some payload =>
      match parseJson payload with
      | none => heuristic_file_selection maxFiles allFiles
      | some v =>
        match pyIterElems v with
        | none => heuristic_file_selection maxFiles allFiles
        | some elems =>
          let valid := validSelected allFiles elems
          if valid.isEmpty then heuristic_file_selection maxFiles allFiles
          else valid.take maxFiles

/-! ## Structure analyzer (`_ai_analyze_repo_structure`,
`_heuristic_structure_analysis`) -/

/-- First value bound to a key in an association list. -/
def lookupAssoc {α : Type} (k : Str) : List (Str × α) → Option α
  | [] => none
  | (k2, v) :: t => if k2 = k then some v else lookupAssoc k t

/-- Python `dict.get(key, default)`. -/
def dictGetD (m : List (Str × Json)) (k : Str) (d : Json) : Json :=
  match lookupAssoc k m with
  | some v => v
  | none => d

/-- Add an element to an insertion-ordered set representation. -/
def addUnique (l : List Str) (x : Str) : List Str :=
  if l.contains x then l else l ++ [x]

/-- Python `'/'.join(parts)`. -/
def joinSlash (parts : List Str) : Str :=
  match parts with
  | [] => []
  | h :: t => t.foldl (fun acc p => acc ++ '/' :: p) h

/-- The `directories` set of `_heuristic_structure_analysis`: every
slash-joined proper prefix of every path's directory part.  Python
iterates this as a hash set, whose order is implementation-defined; the
model fixes first-insertion order, which none of the settled claims
depend on. -/
def collectDirectories (allFiles : List Str) : List Str :=
  allFiles.foldl (fun acc fp =>
    let dirParts := (splitOnChar '/' fp).dropLast
    (List.range dirParts.length).foldl
      (fun acc2 i => addUnique acc2 (joinSlash (dirParts.take (i + 1)))) acc) []

/-- Python `os.path.splitext(p)[1]`: the extension of the final path
component, empty when every character before the last dot of the name
is itself a dot. -/
def splitextExt (p : Str) : Str :=
  let nm := basename p
  match lastIdxOf '.' nm with
  | none => []
  | some i => if (nm.take i).any (fun c => c ≠ '.') then nm.drop i else []

/-- Increment a counter dict entry (Python
`d[k] = d.get(k, 0) + 1`), keeping insertion order. -/
def bumpCount (k : Str) : List (Str × Nat) → List (Str × Nat)
  | [] => [(k, 1)]
  | (k2, n) :: t => if k2 = k then (k2, n + 1) :: t else (k2, n) :: bumpCount k t

/-- The `file_extensions` dict of `_heuristic_structure_analysis`:
lower-cased splitext extensions of paths containing a dot. -/
def collectExtensions (allFiles : List Str) : List (Str × Nat) :=
  allFiles.foldl (fun acc fp =>
    if fp.contains '.' then bumpCount (strLower (splitextExt fp)) acc else acc) []

/-- The `extension_to_language` table from the source. -/
def EXTENSION_TO_LANGUAGE : List (Str × Str) :=
  [(".js".data, "JavaScript".data), (".ts".data, "TypeScript".data),
   (".py".data, "Python".data), (".java".data, "Java".data),
   (".go".data, "Go".data), (".rs".data, "Rust".data),
   (".cpp".data, "C++".data), (".c".data, "C".data),
   (".cs".data, "C#".data), (".rb".data, "Ruby".data),
   (".php".data, "PHP".data), (".swift".data, "Swift".data),
   (".kt".data, "Kotlin".data), (".scala".data, "Scala".data)]

/-- `languages_detected` from the source: known extensions, in dict
order, mapped to language names. -/
def languagesDetected (allFiles : List Str) : List Str :=
  (collectExtensions allFiles).filterMap fun en =>
    match lookupAssoc en.1 EXTENSION_TO_LANGUAGE with
    | some lang => if en.2 > 0 then some lang else none
    | none => none

/-- `has_tests` from the source. -/
def hasTests (allFiles : List Str) : Bool :=
  allFiles.any fun f =>
    containsSub "test".data (strLower f) || containsSub "spec".data (strLower f)

/-- `has_ci_cd` from the source (the first two patterns are matched
case-sensitively there). -/
def hasCiCd (allFiles : List Str) : Bool :=
  allFiles.any fun f =>
    containsSub ".github/".data f || containsSub ".gitlab-ci".data f ||
      containsSub "jenkinsfile".data (strLower f)

/-- `has_docker` from the source. -/
def hasDocker (allFiles : List Str) : Bool :=
  allFiles.any fun f =>
    containsSub "dockerfile".data (strLower f) ||
      containsSub "docker-compose".data (strLower f)

/-- `has_docs` from the source. -/
def hasDocs (allFiles : List Str) : Bool :=
  allFiles.any fun f =>
    containsSub "readme".data (strLower f) || containsSub "doc".data (strLower f)

/-- `package_json_count` from the source. -/
def packageJsonCount (allFiles : List Str) : Nat :=
  (allFiles.filter fun f => "package.json".data.isSuffixOf f).length

/-- `is_monorepo` from the source. -/
def isMonorepo (allFiles : List Str) : Bool :=
  packageJsonCount allFiles > 1 ||
    allFiles.any fun f =>
      containsSub "lerna.json".data f || containsSub "nx.json".data f

/-- Python string comparison: lexicographic by code point. -/
def lexLt : Str → Str → Bool
  | [], [] => false
  | [], _ :: _ => true
  | _ :: _, [] => false
  | a :: s, b :: t =>
    if a.toNat < b.toNat then true
    else if b.toNat < a.toNat then false
    else lexLt s t

/-- Insertion step of an ascending lexicographic sort. -/
def insertAsc (x : Str) : List Str → List Str
  | [] => [x]
  | y :: t => if lexLt x y then x :: y :: t else y :: insertAsc x t

/-- Python `sorted` on strings (ascending lexicographic). -/
def sortStrAsc (l : List Str) : List Str :=
  l.foldl (fun acc x => insertAsc x acc) []

/-- `_heuristic_structure_analysis`
(src/repo_analyzer.py:1217-1327): the deterministic fallback structure
analysis, returned as the JSON object literally built by the source. -/
def heuristic_structure_analysis (allFiles : List Str)
    (repoInfo : List (Str × Json)) : Json :=
  let directories := collectDirectories allFiles
  let fileExtensions := collectExtensions allFiles
  let langs := languagesDetected allFiles
  let docker := hasDocker allFiles
  let monorepo := isMonorepo allFiles
  Json.obj [
    ("directories".data, Json.obj [
      ("main_directories".data,
        Json.arr (((sortStrAsc directories).take 10).map Json.str)),
      ("source_directories".data,
        Json.arr ((directories.filter fun d =>
          ["src".data, "lib".data, "app".data].any fun s => containsSub s d).map Json.str)),
      ("config_directories".data,
        Json.arr ((directories.filter fun d =>
          ["config".data, "conf".data, ".github".data].any fun s => containsSub s d).map Json.str)),
      ("test_directories".data,
        Json.arr ((directories.filter fun d =>
          ["test".data, "spec".data, "__tests__".data].any fun s => containsSub s d).map Json.str)),
      ("doc_directories".data,
        Json.arr ((directories.filter fun d =>
          ["doc".data, "docs".data, "documentation".data].any fun s => containsSub s d).map Json.str))]),
    ("languages".data, Json.obj [
      ("primary_language".data,
        dictGetD repoInfo "language".data (Json.str "Unknown".data)),
      ("secondary_languages".data, Json.arr ((langs.take 5).map Json.str)),
      ("language_distribution".data,
        Json.obj ((langs.take 3).foldl
          (fun acc lang => assocSet lang (Json.str "estimated".data) acc) [])),
      ("frameworks_detected".data, Json.arr [])]),
    ("project_type".data, Json.obj [
      ("architecture".data,
        Json.str (if monorepo = true then "monorepo".data else "single-project".data)),
      ("complexity".data, Json.str "moderate".data),
      ("domain".data, Json.str "unknown".data),
      ("scale".data, Json.str "unknown".data)]),
    ("features".data, Json.obj [
      ("has_tests".data, Json.bool (hasTests allFiles)),
      ("has_ci_cd".data, Json.bool (hasCiCd allFiles)),
      ("has_documentation".data, Json.bool (hasDocs allFiles)),
      ("has_docker".data, Json.bool docker),
      ("has_database".data, Json.bool false),
      ("has_api".data, Json.bool false),
      ("has_frontend".data, Json.bool
        ([".html".data, ".css".data, ".js".data, ".ts".data].any fun e =>
          (fileExtensions.map fun x => x.1).contains e)),
      ("has_backend".data, Json.bool
        ([".py".data, ".java".data, ".go".data, ".php".data].any fun e =>
          (fileExtensions.map fun x => x.1).contains e))]),
    ("monorepo_analysis".data, Json.obj [
      ("is_monorepo".data, Json.bool monorepo),
      ("workspace_tool".data, Json.str "unknown".data),
      ("packages".data, Json.arr []),
      ("shared_dependencies".data, Json.bool false)]),
    ("build_system".data, Json.obj [
      ("build_tools".data, Json.arr []),
      ("package_managers".data, Json.arr []),
      ("bundlers".data, Json.arr []),
      ("task_runners".data, Json.arr [])]),
    ("deployment".data, Json.obj [
      ("deployment_targets".data, Json.arr []),
      ("containerization".data,
        Json.str (if docker = true then "docker".data else "none".data)),
      ("infrastructure_as_code".data, Json.str "none".data)]),
    ("quality_assurance".data, Json.obj [
      ("linting".data, Json.arr []),
      ("formatting".data, Json.arr []),
      ("testing_frameworks".data, Json.arr []),
      ("code_coverage".data, Json.bool false)]),
    ("insights".data, Json.obj [
      ("architectural_patterns".data, Json.arr []),
      ("notable_conventions".data, Json.arr []),
      ("potential_improvements".data, Json.arr []),
      ("estimated_team_size".data, Json.str "unknown".data),
      ("maintenance_level".data, Json.str "unknown".data),
      ("fallback_analysis".data, Json.bool true)])]

/-- `_ai_analyze_repo_structure` (src/repo_analyzer.py:1059-1215), from
the AI response on: extract the braced slice and strict-parse it; on
success the parsed object is returned verbatim; every failure falls
back to `_heuristic_structure_analysis`. -/
def ai_analyze_repo_structure (allFiles : List Str)
    (repoInfo : List (Str × Json)) (resp : AiResponse) : Json :=
  match resp with
  | .error => heuristic_structure_analysis allFiles repoInfo
  | .nonText => heuristic_structure_analysis allFiles repoInfo
  | .text s =>
    match extract_payload '{' '}' s with
    | none => heuristic_structure_analysis allFiles repoInfo
    | some payload =>
      match parseJson payload with
      | some v => v
      | none => heuristic_structure_analysis allFiles repoInfo

/-- The nine top-level fields of the StructureAnalysis shape. -/
def STRUCTURE_FIELDS : List Str :=
  ["directories".data, "languages".data, "project_type".data, "features".data,
   "monorepo_analysis".data, "build_system".data, "deployment".data,
   "quality_assurance".data, "insights".data]

/-- Whether a JSON value is an object carrying a given key. -/
def jsonHasKey (j : Json) (k : Str) : Bool :=
  match j with
  | Json.obj kvs => kvs.any fun kv => kv.1 == k
  | _ => false

/-- The value of a key in a JSON object, if any. -/
def jsonGetKey (j : Json) (k : Str) : Option Json :=
  match j with
  | Json.obj kvs => lookupAssoc k kvs
  | _ => none

end RepoAnalyzer

namespace RepoAnalyzer

/-! ## Lemmas about the heuristic ranker -/

theorem patternScoreAux_eq (fp : Str) (l : List Str) (i : Nat) :
    patternScoreAux fp l i =
      match firstMatchIdx (fun p => containsSub (strLower p) (strLower fp)) l with
      | some j => (PRIORITY_PATTERNS.length - (i + j)) * 10
      | none => 0 := by
  induction l generalizing i with
  | nil => rfl
  | cons p rest ih =>
    by_cases h : containsSub (strLower p) (strLower fp)
    · simp [patternScoreAux, firstMatchIdx, h]
    · simp only [patternScoreAux, firstMatchIdx, h, if_neg, Bool.false_eq_true,
        if_false]
      rw [ih (i + 1)]
      cases hfi : firstMatchIdx (fun p => containsSub (strLower p) (strLower fp)) rest with
      | none => simp
      | some j => simp [Nat.add_assoc, Nat.add_comm 1 j]

theorem fileScore_eq_specScore (fp : Str) : fileScore fp = specScore fp := by
  unfold fileScore specScore
  rw [patternScoreAux_eq]
  simp

theorem scored_eq (f : Str → Nat) (l : List Str) :
    (l.filterMap fun fp => let s := f fp; if s > 0 then some (fp, s) else none) =
      (l.filter fun p => f p > 0).map (fun p => (p, f p)) := by
  induction l with
  | nil => rfl
  | cons a t ih =>
    by_cases h : f a > 0 <;>
      simp [List.filterMap_cons, List.filter_cons, h, ih]

theorem insertDesc_map_pair (f : Str → Nat) (p : Str) (l : List Str) :
    insertDesc (fun x : Str × Nat => x.2) (p, f p) (l.map fun q => (q, f q)) =
      (insertDesc f p l).map (fun q => (q, f q)) := by
  induction l with
  | nil => rfl
  | cons a t ih =>
    by_cases h : f a < f p <;> simp [insertDesc, h, ih]

theorem stableSortDesc_map_pair (f : Str → Nat) (l : List Str) :
    stableSortDesc (fun x : Str × Nat => x.2) (l.map fun q => (q, f q)) =
      (stableSortDesc f l).map (fun q => (q, f q)) := by
  suffices h : ∀ (l acc : List Str),
      (l.map fun q => (q, f q)).foldl
          (fun acc x => insertDesc (fun x : Str × Nat => x.2) x acc)
          (acc.map fun q => (q, f q)) =
        ((l.foldl (fun acc x => insertDesc f x acc) acc).map fun q => (q, f q)) by
    simpa [stableSortDesc] using h l []
  intro l
  induction l with
  | nil => intro acc; rfl
  | cons a t ih =>
    intro acc
    simp only [List.map_cons, List.foldl_cons, insertDesc_map_pair]
    exact ih _

theorem heuristic_eq_rank_spec (limit : Nat) (paths : List Str) :
    heuristic_file_selection limit paths = heuristicRankSpec limit paths := by
  unfold heuristic_file_selection heuristicRankSpec
  simp only [fileScore_eq_specScore]
  rw [scored_eq, stableSortDesc_map_pair, ← List.map_take, List.map_map]
  have hcomp : ((fun x : Str × Nat => x.1) ∘ fun q : Str => (q, specScore q)) = id := rfl
  rw [hcomp, List.map_id]

theorem mem_insertDesc {α : Type} (key : α → Nat) (x y : α) (l : List α) :
    y ∈ insertDesc key x l ↔ y = x ∨ y ∈ l := by
  induction l with
  | nil => simp [insertDesc]
  | cons a t ih =>
    by_cases h : key a < key x
    · simp [insertDesc, h]
    · simp [insertDesc, h, ih]
      tauto

theorem mem_stableSortDesc {α : Type} (key : α → Nat) (l : List α) (y : α) :
    y ∈ stableSortDesc key l ↔ y ∈ l := by
  suffices h : ∀ (l acc : List α),
      (y ∈ l.foldl (fun acc x => insertDesc key x acc) acc) ↔ y ∈ acc ∨ y ∈ l by
    simpa [stableSortDesc] using h l []
  intro l
  induction l with
  | nil => intro acc; simp
  | cons a t ih =>
    intro acc
    simp [List.foldl_cons, ih, mem_insertDesc]
    tauto

theorem heuristic_length_le (limit : Nat) (paths : List Str) :
    (heuristic_file_selection limit paths).length ≤ limit := by
  rw [heuristic_eq_rank_spec]
  unfold heuristicRankSpec
  exact List.length_take_le _ _

theorem heuristic_subset (limit : Nat) (paths : List Str) (x : Str)
    (hx : x ∈ heuristic_file_selection limit paths) : x ∈ paths := by
  rw [heuristic_eq_rank_spec] at hx
  unfold heuristicRankSpec at hx
  have h1 : x ∈ stableSortDesc specScore (paths.filter (fun p => specScore p > 0)) :=
    List.mem_of_mem_take hx
  rw [mem_stableSortDesc] at h1
  exact List.mem_of_mem_filter h1

/-! ## Claim theorems: C8 and C6 -/

/-- C8: for every file-path list and every exclusion configuration
(excluded directories, excluded extensions, supported extensions), the
file filter is idempotent: filtering an already-filtered list returns
that list unchanged. -/
theorem filter_files_idempotent (excludedDirs excludedExts supportedExts : List Str)
    (allFiles : List Str) :
    filter_files excludedDirs excludedExts supportedExts
      (filter_files excludedDirs excludedExts supportedExts allFiles) =
    filter_files excludedDirs excludedExts supportedExts allFiles := by
  simp [filter_files, List.filter_filter]

/-! ## Lemmas about the content fetcher -/

theorem sumVals_assocSet (k : Str) (v : Str) (m : List (Str × Str)) :
    sumVals (assocSet k v m) ≤ sumVals m + v.length := by
  induction m with
  | nil => simp [assocSet, sumVals]
  | cons e t ih =>
    obtain ⟨k2, v2⟩ := e
    by_cases h : k2 = k
    · simp [assocSet, h, sumVals]
      omega
    · simp only [assocSet, if_neg h]
      simp only [sumVals, List.map_cons, List.sum_cons] at *
      omega

theorem mem_assocSet {α : Type} (k : Str) (v : α) (m : List (Str × α))
    (e : Str × α) (he : e ∈ assocSet k v m) : e ∈ m ∨ e.2 = v := by
  induction m with
  | nil => simp [assocSet] at he; simp [he]
  | cons hd t ih =>
    obtain ⟨k2, v2⟩ := hd
    by_cases h : k2 = k
    · simp [assocSet, h] at he
      rcases he with he | he
      · simp [he]
      · exact Or.inl (List.mem_cons_of_mem _ he)
    · simp [assocSet, h] at he
      rcases he with he | he
      · simp [he]
      · rcases ih he with h1 | h1
        · exact Or.inl (List.mem_cons_of_mem _ h1)
        · exact Or.inr h1

theorem fetchLoop_invariant (oracle : Str → FetchOutcome) (mfs maxTotal : Nat)
    (paths : List Str) :
    ∀ (acc : List (Str × Str)) (total : Nat),
      sumVals acc ≤ total →
      total < maxTotal + (mfs + TRUNCATION_MARKER.length) →
      (∀ e ∈ acc, (e : Str × Str).2.length ≤ mfs + TRUNCATION_MARKER.length) →
      sumVals (fetchLoop oracle mfs maxTotal paths acc total) <
          maxTotal + (mfs + TRUNCATION_MARKER.length) ∧
        ∀ e ∈ fetchLoop oracle mfs maxTotal paths acc total,
          (e : Str × Str).2.length ≤ mfs + TRUNCATION_MARKER.length := by
  induction paths with
  | nil =>
    intro acc total h1 h2 h3
    exact ⟨lt_of_le_of_lt h1 h2, h3⟩
  | cons fp rest ih =>
    intro acc total h1 h2 h3
    rw [fetchLoop]
    by_cases hguard : total ≥ maxTotal
    · rw [if_pos hguard]
      exact ⟨lt_of_le_of_lt h1 h2, h3⟩
    · rw [if_neg hguard]
      cases horacle : oracle fp with
      | rateLimited => exact ⟨lt_of_le_of_lt h1 h2, h3⟩
      | notFound => exact ih acc total h1 h2 h3
      | requestError => exact ih acc total h1 h2 h3
      | otherError => exact ih acc total h1 h2 h3
      | otherEncoding => exact ih acc total h1 h2 h3
      | base64Content otext =>
        cases otext with
        | none => exact ih acc total h1 h2 h3
        | some text =>
          simp only []
          set t := if text.length > mfs then text.take mfs ++ TRUNCATION_MARKER else text with ht
          have hlen : t.length ≤ mfs + TRUNCATION_MARKER.length := by
            rw [ht]
            by_cases hbig : text.length > mfs
            · rw [if_pos hbig]
              simp [List.length_take]
            · rw [if_neg hbig]
              omega
          apply ih
          · calc sumVals (assocSet fp t acc) ≤ sumVals acc + t.length := sumVals_assocSet fp t acc
              _ ≤ total + t.length := Nat.add_le_add_right h1 _
          · omega
          · intro e he
            rcases mem_assocSet fp t acc e he with h4 | h4
            · exact h3 e h4
            · rw [h4]; exact hlen

/-! ## Claim theorems: C9 and C1 -/

/-- C9: for every input to the content fetcher, the total combined
content length of the returned FileContentMap is strictly below
MAX_TOTAL_CONTENT_SIZE + max_file_size + length of the truncation
marker: the budget is checked before each fetch, and each stored entry
is at most max_file_size plus the marker length, so the total can
overshoot the budget by at most one entry. -/
theorem fetch_total_strictly_below_budget_plus_one_entry
    (oracle : Str → FetchOutcome) (mfs : Nat) (paths : List Str) :
    sumVals (fetch_file_contents oracle mfs paths) <
        MAX_TOTAL_CONTENT_SIZE + mfs + TRUNCATION_MARKER.length ∧
      ∀ e ∈ fetch_file_contents oracle mfs paths,
        (e : Str × Str).2.length ≤ mfs + TRUNCATION_MARKER.length := by
  have h := fetchLoop_invariant oracle mfs MAX_TOTAL_CONTENT_SIZE paths [] 0
      (by simp [sumVals]) (by simp [MAX_TOTAL_CONTENT_SIZE]) (by simp)
  rw [fetch_file_contents]
  refine ⟨?_, h.2⟩
  have h1 := h.1
  omega

/-- C1 counterexample: with the analyzer's actual budget
MAX_TOTAL_CONTENT_SIZE = 100000, a per-file limit of 100000 and three
requested files of 60000 characters each, the fetcher stores the first
two files, so the returned map's total combined content length is
120000, exceeding MAX_TOTAL_CONTENT_SIZE — the claimed invariant
"total combined content length at most MAX_TOTAL_CONTENT_SIZE" is
false, and more than one file is fetched before fetching stops. -/
theorem fetch_total_exceeds_budget_cex :
    MAX_TOTAL_CONTENT_SIZE <
      sumVals (fetch_file_contents
        (fun _ => FetchOutcome.base64Content (some (List.replicate 60000 'x')))
        100000 [['a'], ['b'], ['c']]) := by
  have key : ∀ c : Str, c.length = 60000 →
      sumVals (fetch_file_contents
        (fun _ => FetchOutcome.base64Content (some c))
        100000 [['a'], ['b'], ['c']]) = 120000 := by
    intro c hc
    rw [fetch_file_contents]
    simp [fetchLoop, assocSet, MAX_TOTAL_CONTENT_SIZE, hc, sumVals]
  rw [key (List.replicate 60000 'x') (List.length_replicate 60000 'x')]
  simp [MAX_TOTAL_CONTENT_SIZE]

/-- C1 (amended): the budget check happens before each fetch, so a file
is fetched only while the accumulated total is still strictly below the
budget and the total may overshoot it by one entry; in the claimed
scenario — total budget 100 and three requested files of 60 characters
each — the first two files are fetched and only the third is skipped. -/
theorem fetch_budget_scenario_first_two_fetched :
    fetchLoop (fun _ => FetchOutcome.base64Content (some (List.replicate 60 'x')))
        1000 100 [['a'], ['b'], ['c']] [] 0 =
      [(['a'], List.replicate 60 'x'), (['b'], List.replicate 60 'x')] := by
  rfl

/-- C6: for every path list and limit, the heuristic ranking of
`_heuristic_file_selection` computes exactly the procedure stated in
the spec: first-match priority-pattern award of
(patternListLength - patternIndex) * 10, the three flat bonuses (+5
root-level, +3 config/setup filename, +2 documentation/license
filename), exclusion of zero-scoring paths, a stable descending sort
by score, and truncation to the top limit. -/
theorem heuristic_selection_matches_spec (limit : Nat) (paths : List Str) :
    heuristic_file_selection limit paths = heuristicRankSpec limit paths :=
  heuristic_eq_rank_spec limit paths

/-! ## Claim theorems: C5 and C7 -/

/-- C5: whenever the AI call raises an error whose text contains an
authentication/authorization/forbidden marker (e.g. "unauthorized"),
`_call_ai_model` makes exactly one attempt — no retry and no backoff
sleep — and raises the distinct authentication-failed condition
immediately. -/
theorem auth_error_single_attempt (oracle : Nat → AiAttemptOutcome) (msg : Str)
    (h0 : oracle 0 = AiAttemptOutcome.raised msg)
    (hmark : isAuthError msg = true) :
    call_ai_model oracle =
      ⟨AiCallResult.authenticationFailed, 1, []⟩ := by
  simp [call_ai_model, AI_MAX_RETRIES, callAiLoop, h0, hmark]

/-- Witness for C5: a concrete oracle whose first attempt raises an
error containing "unauthorized". -/
theorem auth_error_single_attempt_witness :
    call_ai_model (fun _ => AiAttemptOutcome.raised "Error code 401 - unauthorized".data) =
      ⟨AiCallResult.authenticationFailed, 1, []⟩ :=
  auth_error_single_attempt _ "Error code 401 - unauthorized".data rfl (by decide)

/-- C7: for both the metadata fetch and the file-tree fetch, an HTTP
403 response whose body carries the rate-limit signal aborts the retry
loop immediately — exactly one attempt, no backoff sleep — and
surfaces the distinct rate-limited condition instead of being
retried. -/
theorem rate_limit_aborts_both_fetches {α : Type}
    (oracleInfo : Nat → HttpOutcome α)
    (oracleTree : Nat → HttpOutcome (List (Str × Str)))
    (bodyInfo bodyTree : Str) (payloadInfo : α) (payloadTree : List (Str × Str))
    (hInfo : oracleInfo 0 = HttpOutcome.response 403 bodyInfo payloadInfo)
    (hrlInfo : containsSub "rate limit".data (strLower bodyInfo) = true)
    (hTree : oracleTree 0 = HttpOutcome.response 403 bodyTree payloadTree)
    (hrlTree : containsSub "rate limit".data (strLower bodyTree) = true) :
    fetch_repo_info oracleInfo = ⟨GhResult.rateLimited, 1, []⟩ ∧
      fetch_complete_file_tree oracleTree = ⟨GhResult.rateLimited, 1, []⟩ := by
  constructor
  · simp [fetch_repo_info, ghFetchLoop, hInfo, hrlInfo]
  · simp [fetch_complete_file_tree, ghFetchLoop, hTree, hrlTree]

/-- Witness for C7: concrete oracles answering HTTP 403 with a
rate-limit body on the first attempt. -/
theorem rate_limit_aborts_both_fetches_witness :
    fetch_repo_info (α := Unit)
        (fun _ => HttpOutcome.response 403 "API rate limit exceeded for 1.2.3.4".data ()) =
        ⟨GhResult.rateLimited, 1, []⟩ ∧
      fetch_complete_file_tree
          (fun _ => HttpOutcome.response 403 "API rate limit exceeded for 1.2.3.4".data []) =
        ⟨GhResult.rateLimited, 1, []⟩ :=
  rate_limit_aborts_both_fetches _ _
    "API rate limit exceeded for 1.2.3.4".data "API rate limit exceeded for 1.2.3.4".data
    () [] rfl (by decide) rfl (by decide)

/-! ## Lemmas about the extraction primitive -/

theorem strFind_append_head (c : Char) (p1 rest : Str) (h : c ∉ p1) :
    strFind c (p1 ++ c :: rest) = some p1.length := by
  induction p1 with
  | nil => simp [strFind]
  | cons x t ih =>
    rw [List.mem_cons, not_or] at h
    have hx : x ≠ c := fun he => h.1 he.symm
    simp [strFind, hx, ih h.2]

theorem strRFind_eq_none (c : Char) (l : Str) (h : c ∉ l) : strRFind c l = none := by
  induction l with
  | nil => rfl
  | cons x t ih =>
    rw [List.mem_cons, not_or] at h
    have hx : x ≠ c := fun he => h.1 he.symm
    simp [strRFind, ih h.2, hx]

theorem strRFind_append_last (c : Char) (a p2 : Str) (h : c ∉ p2) :
    strRFind c (a ++ c :: p2) = some a.length := by
  induction a with
  | nil => simp [strRFind, strRFind_eq_none c p2 h]
  | cons x t ih => simp [strRFind, ih]

theorem extract_payload_embedded (opener closer : Char) (p1 mid p2 : Str)
    (hop : opener ∉ p1) (hcl : closer ∉ p2) :
    extract_payload opener closer (p1 ++ (opener :: (mid ++ [closer])) ++ p2) =
      some (opener :: (mid ++ [closer])) := by
  have hfind : strFind opener (p1 ++ (opener :: (mid ++ [closer])) ++ p2) =
      some p1.length := by
    have h0 := strFind_append_head opener p1 ((mid ++ [closer]) ++ p2) hop
    simpa [List.append_assoc] using h0
  have hrfind : strRFind closer (p1 ++ (opener :: (mid ++ [closer])) ++ p2) =
      some (p1 ++ opener :: mid).length := by
    have h0 := strRFind_append_last closer (p1 ++ opener :: mid) p2 hcl
    have heq : (p1 ++ opener :: mid) ++ closer :: p2 =
        p1 ++ (opener :: (mid ++ [closer])) ++ p2 := by simp
    rw [heq] at h0
    exact h0
  simp only [extract_payload, hfind, hrfind]
  have hdrop : (p1 ++ (opener :: (mid ++ [closer])) ++ p2).drop p1.length =
      (opener :: (mid ++ [closer])) ++ p2 := by
    rw [List.append_assoc]
    exact List.drop_left p1 _
  have hlen : (p1 ++ opener :: mid).length + 1 - p1.length =
      (opener :: (mid ++ [closer])).length := by
    simp [List.length_append]
    omega
  rw [hdrop, hlen, List.take_left]

/-! ## Claim theorems: C4 -/

/-- C4 counterexample: the text "[note:[1,2]" contains exactly one
well-formed JSON array (the substring "[1,2]", whose value is the
array of 1 and 2), yet slicing from the first opening bracket to the
last closing bracket yields the unparsable "[note:[1,2]", so the
extraction procedure recovers nothing rather than the embedded
value. -/
theorem extraction_misses_unique_array_cex :
    countArraySubstrings "[note:[1,2]".data = 1 ∧
      parseJson "[1,2]".data = some (Json.arr [Json.num ['1'], Json.num ['2']]) ∧
      extractJson '[' ']' "[note:[1,2]".data = none :=
  ⟨rfl, rfl, rfl⟩

/-- C4 (amended): for a response text containing one well-formed JSON
value wrapped in the claimed delimiters, surrounded by prose in which
the opening delimiter does not occur before the payload and the closing
delimiter does not occur after it, the extraction procedure — slice
from the first occurrence of the opening delimiter to the last
occurrence of the closing delimiter, then strict-parse — recovers a
value structurally equal to the embedded one. -/
theorem extraction_recovers_embedded_json (opener closer : Char)
    (p1 mid p2 : Str) (v : Json)
    (hop : opener ∉ p1) (hcl : closer ∉ p2)
    (hparse : parseJson (opener :: (mid ++ [closer])) = some v) :
    extractJson opener closer (p1 ++ (opener :: (mid ++ [closer])) ++ p2) =
      some v := by
  rw [extractJson, extract_payload_embedded opener closer p1 mid p2 hop hcl]
  simpa using hparse

/-- Witness for C4 (amended): the array ["a"] embedded in prose. -/
theorem extraction_recovers_embedded_json_witness :
    ('[' ∉ "Sure! ".data) ∧ (']' ∉ " done.".data) ∧
      extractJson '[' ']'
          ("Sure! ".data ++ ('[' :: ("\"a\"".data ++ [']'])) ++ " done.".data) =
        some (Json.arr [Json.str ['a']]) :=
  ⟨by decide, by decide,
    extraction_recovers_embedded_json '[' ']' "Sure! ".data "\"a\"".data
      " done.".data (Json.arr [Json.str ['a']]) (by decide) (by decide) rfl⟩

/-! ## Lemmas about the AI file selector -/

theorem validSelected_subset (allFiles : List Str) (elems : List Json) (f : Str)
    (hf : f ∈ validSelected allFiles elems) : f ∈ allFiles := by
  rw [validSelected, List.mem_filterMap] at hf
  obtain ⟨j, _, hmatch⟩ := hf
  cases j with
  | str s =>
    simp at hmatch
    exact hmatch.2 ▸ hmatch.1
  | null => simp at hmatch
  | bool b => simp at hmatch
  | num lx => simp at hmatch
  | arr es => simp at hmatch
  | obj kvs => simp at hmatch

/-! ## Claim theorems: C3 and C10 -/

/-- C3: for every filtered file list, AI response and limit, the
selection result of `_ai_select_files_to_analyze` has length at most
max_files_to_analyze and every element of it is a member of the input
filtered file list, whether selection succeeded via the AI path or
fell back to the heuristic ranker. -/
theorem selection_within_limit_and_input (maxFiles : Nat) (allFiles : List Str)
    (resp : AiResponse) :
    (ai_select_files maxFiles allFiles resp).length ≤ maxFiles ∧
      ∀ f ∈ ai_select_files maxFiles allFiles resp, f ∈ allFiles := by
  have hfb : (heuristic_file_selection maxFiles allFiles).length ≤ maxFiles ∧
      ∀ f ∈ heuristic_file_selection maxFiles allFiles, f ∈ allFiles :=
    ⟨heuristic_length_le maxFiles allFiles,
     fun f hf => heuristic_subset maxFiles allFiles f hf⟩
  cases resp with
  | error => exact hfb
  | nonText => exact hfb
  | text s =>
    cases hex : extract_payload '[' ']' s with
    | none => simpa [ai_select_files, hex] using hfb
    | some payload =>
      cases hp : parseJson payload with
      | none => simpa [ai_select_files, hex, hp] using hfb
      | some v =>
        cases hit : pyIterElems v with
        | none => simpa [ai_select_files, hex, hp, hit] using hfb
        | some elems =>
          by_cases hv : (validSelected allFiles elems).isEmpty = true
          · simpa [ai_select_files, hex, hp, hit, hv] using hfb
          · have hsel : ai_select_files maxFiles allFiles (.text s) =
                (validSelected allFiles elems).take maxFiles := by
              simp [ai_select_files, hex, hp, hit, hv]
            rw [hsel]
            refine ⟨List.length_take_le _ _, fun f hf => ?_⟩
            exact validSelected_subset allFiles elems f (List.mem_of_mem_take hf)

/-- C10: for every non-empty path list in which every path scores 0,
heuristic selection returns the empty list, and consequently the AI
file selector's fallback path returns an empty selection even though
its input filtered list is non-empty. -/
theorem zero_scores_give_empty_selection (maxFiles : Nat) (paths : List Str)
    (_hne : paths ≠ []) (hzero : ∀ p ∈ paths, fileScore p = 0) :
    heuristic_file_selection maxFiles paths = [] ∧
      ai_select_files maxFiles paths AiResponse.error = [] := by
  have h : heuristic_file_selection maxFiles paths = [] := by
    have hsc : (paths.filterMap fun fp =>
        let s := fileScore fp
        if s > 0 then some (fp, s) else none) = [] := by
      rw [List.filterMap_eq_nil_iff]
      intro a ha
      simp [hzero a ha]
    simp [heuristic_file_selection, hsc, stableSortDesc]
  exact ⟨h, by simpa [ai_select_files] using h⟩

/-- Witness for C10: a single file whose path matches no priority
pattern, is not root-level, and has no config/setup/documentation
filename. -/
theorem zero_scores_give_empty_selection_witness :
    (["src/main.xyz".data] ≠ ([] : List Str)) ∧
      heuristic_file_selection 50 ["src/main.xyz".data] = [] ∧
      ai_select_files 50 ["src/main.xyz".data] AiResponse.error = [] :=
  ⟨by decide,
   (zero_scores_give_empty_selection 50 ["src/main.xyz".data] (by decide) (by decide)).1,
   (zero_scores_give_empty_selection 50 ["src/main.xyz".data] (by decide) (by decide)).2⟩

/-! ## Claim theorems: C2 -/

/-- C2 counterexample: when the AI response parses, the structure
analyzer returns the parsed object verbatim — here the object with the
single field "foo" — with no schema validation by presence: the result
lacks the "directories" field (and every other required field), so the
operation does not always return the full fixed-shape record. -/
theorem structure_ai_not_shape_validated_cex :
    ai_analyze_repo_structure [] [] (AiResponse.text "\x7b\"foo\": 1\x7d".data) =
        Json.obj [("foo".data, Json.num ['1'])] ∧
      jsonHasKey (ai_analyze_repo_structure [] []
          (AiResponse.text "\x7b\"foo\": 1\x7d".data)) "directories".data = false :=
  ⟨rfl, rfl⟩

/-- C2 (amended): the AI path returns the parsed JSON object verbatim,
without presence validation; the heuristic fallback — used whenever the
AI call fails or its response does not parse — always carries the full
fixed shape (directories, languages, project_type, features,
monorepo_analysis, build_system, deployment, quality_assurance,
insights), with conservative/empty defaults and a fallback_analysis
marker inside insights. -/
theorem structure_fallback_complete_shape (allFiles : List Str)
    (repoInfo : List (Str × Json)) :
    (STRUCTURE_FIELDS.all fun k =>
        jsonHasKey (heuristic_structure_analysis allFiles repoInfo) k) = true ∧
      ((jsonGetKey (heuristic_structure_analysis allFiles repoInfo)
            "insights".data).bind fun ins =>
          jsonGetKey ins "fallback_analysis".data) =
        some (Json.bool true) ∧
      ai_analyze_repo_structure allFiles repoInfo AiResponse.error =
        heuristic_structure_analysis allFiles repoInfo :=
  ⟨rfl, rfl, rfl⟩

end RepoAnalyzer
